import Mathlib

/-!
Verification of the booking core of the Evently event-ticketing service.

The definitions below are a shallow embedding of the Python source:
- `app/core/redis.py` : circuit breaker, seat-reservation / release Lua
  scripts, sliding-window rate limiter;
- `app/core/saga.py` : saga orchestrator and the booking saga;
- `app/core/database.py` : advisory-lock acquisition with backoff;
- `app/api/v1/endpoints/bookings.py` : booking service (create / confirm)
  and the HTTP error classification.

Wall-clock instants are modelled as `Int` (Unix seconds; Redis scores in
milliseconds), monetary amounts as `Nat`, Python dicts as association
lists, raised exceptions as `Except String` carrying the message.
-/

/-! ## String helpers

Python compares strings code point by code point; `String.lt` of Lean does
not reduce in the kernel, so we model the comparison on the character
lists directly. `strContainsB hay needle` models Python's `needle in hay`.
-/

def lexLe : List Char → List Char → Bool
  | [], _ => true
  | _ :: _, [] => false
  | a :: as, b :: bs =>
    if a.toNat < b.toNat then true
    else if b.toNat < a.toNat then false
    else lexLe as bs

def strLeB (a b : String) : Bool := lexLe a.data b.data

/-- Python's `sorted` on a list of strings (stable, code-point order). -/
def pySorted (l : List String) : List String :=
  List.insertionSort (fun a b => strLeB a b = true) l

def listContainsB (hay needle : List Char) : Bool :=
  match hay with
  | [] => needle.isEmpty
  | _ :: t => needle.isPrefixOf hay || listContainsB t needle

/-- Python's substring test `needle in hay`. -/
def strContainsB (hay needle : String) : Bool :=
  listContainsB hay.data needle.data

/-- Python `repr` of a list of (quote-free) strings, as interpolated into
`f"... failed for seats: ..."` messages by `str(list)`. -/
def pyStrListInner : List String → String
  | [] => ""
  | [s] => "'" ++ s ++ "'"
  | s :: rest => "'" ++ s ++ "', " ++ pyStrListInner rest

def pyStrList (l : List String) : String := "[" ++ pyStrListInner l ++ "]"

/-- Python `repr` of a set of strings (braces written escaped). -/
def pyStrSet (l : List String) : String := "\x7b" ++ pyStrListInner l ++ "\x7d"

/-! ## Circuit breaker (`app/core/redis.py`, class `CircuitBreaker`)

States `CLOSED`, `OPEN`, `HALF_OPEN`. All methods run under one asyncio
lock in the source; each is modelled as a pure state transformer.
-/

inductive CBState where
  | closed
  | opened
  | halfOpen
  deriving DecidableEq

structure CircuitBreaker where
  failure_threshold : Nat := 5
  recovery_timeout : Int := 60
  half_open_max_calls : Nat := 3
  failure_count : Nat := 0
  last_failure_time : Option Int := none
  state : CBState := .closed
  half_open_calls : Nat := 0
  deriving DecidableEq

/-- `CircuitBreaker.is_open`: in `OPEN`, moves to `HALF_OPEN` once
`recovery_timeout` has elapsed since the last recorded failure.
`last_failure_time` is always set when the state is `OPEN` (it is only
entered through `record_failure`); the `none` branch is unreachable. -/
def CircuitBreaker.is_open (cb : CircuitBreaker) (now : Int) : Bool × CircuitBreaker :=
  match cb.state with
  | .opened =>
    match cb.last_failure_time with
    | some t =>
      if now - t ≥ cb.recovery_timeout then
        (false, { cb with state := .halfOpen, half_open_calls := 0 })
      else (true, cb)
    | none => (true, cb)
  | _ => (false, cb)

def CircuitBreaker.record_success (cb : CircuitBreaker) : CircuitBreaker :=
  { cb with failure_count := 0, half_open_calls := 0, state := .closed }

def CircuitBreaker.record_failure (cb : CircuitBreaker) (now : Int) : CircuitBreaker :=
  let fc := cb.failure_count + 1
  { cb with
    failure_count := fc
    last_failure_time := some now
    half_open_calls := 0
    state := if cb.state = .halfOpen ∨ fc ≥ cb.failure_threshold then .opened else cb.state }

/-- Outcome of `CircuitBreaker.call`: rejected while open, rejected by the
half-open probe limit, the wrapped function raised, or it returned `a`. -/
inductive CBCallResult (α : Type) where
  | rejectedOpen
  | rejectedHalfOpen
  | raised
  | ok (a : α)
  deriving DecidableEq

/-- `CircuitBreaker.call`: the wrapped coroutine is modelled by
`funcResult`, with `none` standing for it raising an exception. -/
def CircuitBreaker.call (cb : CircuitBreaker) (now : Int) (funcResult : Option α) :
    CBCallResult α × CircuitBreaker :=
  let r := cb.is_open now
  if r.1 then (.rejectedOpen, r.2)
  else
    let cb₁ := r.2
    if cb₁.state = .halfOpen ∧ cb₁.half_open_calls ≥ cb₁.half_open_max_calls then
      (.rejectedHalfOpen, cb₁)
    else
      let cb₂ :=
        if cb₁.state = .halfOpen then { cb₁ with half_open_calls := cb₁.half_open_calls + 1 }
        else cb₁
      match funcResult with
      | some a => (.ok a, cb₂.record_success)
      | none => (.raised, cb₂.record_failure now)

/-! ## Redis seat reservations (`app/core/redis.py`, class `RedisManager`)

The reservation keys `seat:reserved:<eventId>:<seatId>` hold the holder id
as a string with a TTL; the companion `<key>:meta` hashes hold
`user_id / reserved_at / event_id`. The two key families have different
value types (string vs hash), so they are modelled as two tables. -/

structure SeatMeta where
  user_id : String
  reserved_at : Int
  event_id : String
  ttl : Nat
  deriving DecidableEq

def SeatStore := String → Option (String × Nat)

def MetaStore := String → Option SeatMeta

def seat_reservation_key (event_id seat_id : String) : String :=
  "seat:reserved:" ++ event_id ++ ":" ++ seat_id

/-- The write phase of the reservation Lua script: `SET key user EX ttl`
plus `HSET`/`EXPIRE` on the meta key, for each seat id in order. -/
def reserve_write (e u : String) (ttl : Nat) (ts : Int) :
    SeatStore → MetaStore → List String → SeatStore × MetaStore
  | store, meta, [] => (store, meta)
  | store, meta, sid :: rest =>
    let key := seat_reservation_key e sid
    reserve_write e u ttl ts
      (fun k => if k = key then some (u, ttl) else store k)
      (fun k => if k = key ++ ":meta" then some ⟨u, ts, e, ttl⟩ else meta k)
      rest

/-- The Lua script of `RedisManager.reserve_seats`: first `EXISTS` on every
key; when any is taken, return `(0, failed)` touching nothing; otherwise
reserve every seat and return `(1, seats)`. -/
def reserve_seats_script (store : SeatStore) (meta : MetaStore)
    (event_id user_id : String) (ttl : Nat) (timestamp : Int) (seat_ids : List String) :
    (Bool × List String) × SeatStore × MetaStore :=
  let failed := seat_ids.filter (fun sid => (store (seat_reservation_key event_id sid)).isSome)
  if failed ≠ [] then ((false, failed), store, meta)
  else
    let w := reserve_write event_id user_id ttl timestamp store meta seat_ids
    ((true, seat_ids), w.1, w.2)

/-- `RedisManager.reserve_seats`: sorts the seat ids, issues the atomic
script through the circuit breaker, and on any exception (breaker open,
probe limit, or the store call raising — `redisUp = false`) returns
`(False, seat_ids)` with the original argument list. -/
def reserve_seats (cb : CircuitBreaker) (now : Int) (redisUp : Bool)
    (store : SeatStore) (meta : MetaStore)
    (event_id : String) (seat_ids : List String) (user_id : String)
    (ttl : Nat) (timestamp : Int) :
    (Bool × List String) × CircuitBreaker × SeatStore × MetaStore :=
  let sorted_seat_ids := pySorted seat_ids
  let scriptRes :=
    if redisUp then
      some (reserve_seats_script store meta event_id user_id ttl timestamp sorted_seat_ids)
    else none
  match cb.call now scriptRes with
  | (.ok ((success, seats), store', meta'), cb') =>
    if success then ((true, []), cb', store', meta')
    else ((false, seats), cb', store', meta')
  | (_, cb') => ((false, seat_ids), cb', store, meta)

/-- The Lua script of `RedisManager.release_seat_reservations`:
`GET` each key and `DEL` key and meta key only when the stored holder is
`user_id`, counting the actual deletions. -/
def release_script (e u : String) :
    SeatStore → MetaStore → List String → Nat × SeatStore × MetaStore
  | store, meta, [] => (0, store, meta)
  | store, meta, sid :: rest =>
    let key := seat_reservation_key e sid
    match store key with
    | some (owner, _) =>
      if owner = u then
        let r := release_script e u
          (fun k => if k = key then none else store k)
          (fun k => if k = key ++ ":meta" then none else meta k) rest
        (r.1 + 1, r.2)
      else release_script e u store meta rest
    | none => release_script e u store meta rest

/-- `RedisManager.release_seat_reservations`: runs the script through the
circuit breaker and returns `released == len(seat_ids)` — a boolean, the
released count itself is only logged. On exception returns `False`. -/
def release_seat_reservations (cb : CircuitBreaker) (now : Int) (redisUp : Bool)
    (store : SeatStore) (meta : MetaStore)
    (event_id : String) (seat_ids : List String) (user_id : String) :
    Bool × CircuitBreaker × SeatStore × MetaStore :=
  let scriptRes :=
    if redisUp then some (release_script event_id user_id store meta seat_ids) else none
  match cb.call now scriptRes with
  | (.ok (released, store', meta'), cb') =>
    (released = seat_ids.length, cb', store', meta')
  | (_, cb') => (false, cb', store, meta)

/-! ## Sliding-window rate limiter (`RedisManager.is_rate_limited`)

The window is a sorted set `rate:<key>` of `unique_id → timestamp_ms`,
modelled as a list of member/score pairs. -/

/-- The Lua script: prune scores in `[0, timestamp - window*1000]`, count,
and record the current call only when under the limit. -/
def rate_limit_script (entries : List (String × Int)) (limit : Nat) (window : Nat)
    (timestamp : Int) (unique_id : String) :
    (Bool × Nat) × List (String × Int) :=
  let window_start : Int := timestamp - (window * 1000 : Nat)
  let pruned := entries.filter (fun e => !(decide (0 ≤ e.2 ∧ e.2 ≤ window_start)))
  let current_count := pruned.length
  if current_count < limit then
    ((false, current_count + 1), pruned ++ [(unique_id, timestamp)])
  else
    ((true, current_count), pruned)

/-- `RedisManager.is_rate_limited`: runs the script through the circuit
breaker; on any exception it fails open with `(False, 0)`. -/
def is_rate_limited (cb : CircuitBreaker) (now : Int) (redisUp : Bool)
    (entries : List (String × Int)) (limit : Nat) (window : Nat)
    (timestamp : Int) (unique_id : String) :
    (Bool × Nat) × CircuitBreaker × List (String × Int) :=
  let scriptRes :=
    if redisUp then some (rate_limit_script entries limit window timestamp unique_id) else none
  match cb.call now scriptRes with
  | (.ok (r, entries'), cb') => (r, cb', entries')
  | (_, cb') => ((false, 0), cb', entries)

/-! ## Advisory locks (`app/core/database.py`, `DatabaseManager`) -/

/-- The sleep before retry `attempt` in `acquire_advisory_lock`, in
milliseconds: `min(0.1 * (2 ** attempt), 1.0)` seconds in the source. -/
def advisory_backoff_ms (attempt : Nat) : Nat := min (100 * 2 ^ attempt) 1000

/-- The retry loop of `acquire_advisory_lock`: `remaining` iterations left,
the next probe being `tries (attempt + 1)`; stops at the first success. -/
def acquire_advisory_retry (tries : Nat → Bool) : Nat → Nat → Bool
  | _, 0 => false
  | attempt, r + 1 =>
    if tries (attempt + 1) then true else acquire_advisory_retry tries (attempt + 1) r

/-- `DatabaseManager.acquire_advisory_lock`: one immediate
`pg_try_advisory_lock`, then — when it failed and `timeout > 0` — up to
`timeout` further probes, sleeping `advisory_backoff_ms attempt` before
probe `attempt + 1`. `tries k` models the result of the `k`-th probe. -/
def acquire_advisory_lock (tries : Nat → Bool) (timeout : Nat) : Bool :=
  if tries 0 then true
  else if timeout > 0 then acquire_advisory_retry tries 0 timeout
  else false

/-! ## Database rows (`app/models`) -/

inductive SeatStatus where
  | available
  | reserved
  | booked
  | blocked
  deriving DecidableEq

inductive BookingStatus where
  | pending
  | confirmed
  | cancelled
  | expired
  deriving DecidableEq

structure EventRow where
  id : String
  start_time : Int
  deriving DecidableEq

structure SeatRow where
  id : String
  event_id : String
  price : Nat
  status : SeatStatus
  reserved_by : Option String := none
  reserved_at : Option Int := none
  deriving DecidableEq

structure BookingRow where
  id : String
  user_id : String
  event_id : String
  booking_code : String
  status : BookingStatus
  total_amount : Nat
  expires_at : Int
  confirmed_at : Option Int := none
  cancelled_at : Option Int := none
  payment_reference : Option String := none
  deriving DecidableEq

structure BookingSeatRow where
  booking_id : String
  seat_id : String
  price : Nat
  deriving DecidableEq

structure Db where
  events : List EventRow
  seats : List SeatRow
  bookings : List BookingRow
  booking_seats : List BookingSeatRow
  deriving DecidableEq

/-! ## Python values and dicts

The saga context is a Python dict; we model values by a small closed
universe covering everything the booking saga stores in one. -/

/-- The booking summary assembled by `_create_booking_db` into
`context['booking_result']`. -/
structure BookingResult where
  booking_id : String
  booking_code : String
  total_amount : Nat
  expires_at : Int
  seat_count : Nat
  deriving DecidableEq

inductive PyVal where
  | pnone
  | pbool (b : Bool)
  | pnat (n : Nat)
  | pstr (s : String)
  | pstrList (l : List String)
  | pbooking (b : BookingResult)
  | presdict (reserved_seats : List String) (reservation_time : Int)
  deriving DecidableEq

/-- Python truthiness, used by `if step.result:` in `_compensate_step`. -/
def truthy : PyVal → Bool
  | .pnone => false
  | .pbool b => b
  | .pnat n => n ≠ 0
  | .pstr s => s ≠ ""
  | .pstrList l => l ≠ []
  | .pbooking _ => true
  | .presdict _ _ => true

def PyDict := List (String × PyVal)

def dictGet (d : PyDict) (k : String) : Option PyVal :=
  match d with
  | [] => none
  | (k₀, v₀) :: rest => if k₀ = k then some v₀ else dictGet rest k

/-- `d.get(k)` of Python: `None` when the key is absent. -/
def dictGetD (d : PyDict) (k : String) : PyVal :=
  match dictGet d k with
  | some v => v
  | none => .pnone

def dictSet (d : PyDict) (k : String) (v : PyVal) : PyDict :=
  match d with
  | [] => [(k, v)]
  | (k₀, v₀) :: rest => if k₀ = k then (k₀, v) :: rest else (k₀, v₀) :: dictSet rest k v

/-- `Python dict-literal merge: `a` overridden by the entries of `b`,
producing a fresh dict (the source's `combined_context`). -/
def dictMerge (a b : PyDict) : PyDict :=
  b.foldl (fun acc kv => dictSet acc kv.1 kv.2) a

/-! ## Saga orchestrator (`app/core/saga.py`, class `SagaOrchestrator`)

A step's action receives the attempt number (retries may observe a world
changed by earlier attempts), the merged context and the world `W`; it
returns either the step result together with the (locally mutated) merged
context, or the raised exception's message, plus the world. A compensation
returns whether it completed (`false` = it raised; the orchestrator logs
and continues either way). `_persist_saga_state` swallows its own
exceptions and is invisible to the run, so it is not modelled.
-/

structure SagaStep (W : Type) where
  name : String
  context : PyDict := []
  max_retries : Nat := 3
  action : Nat → PyDict → W → Except String (PyVal × PyDict) × W
  compensation : PyDict → W → Bool × W

/-- The retry loop of `SagaOrchestrator._execute_step`: `fuel` further
attempts remain after the current one. The merged context is rebuilt from
`saga.context` for every attempt, and the context mutated by the action is
discarded — only the returned result is stored on the step record. -/
def execute_step_aux (sagaCtx : PyDict) (step : SagaStep W) :
    Nat → Nat → W → Except String PyVal × W
  | attempt, 0, w =>
    match step.action attempt (dictMerge sagaCtx step.context) w with
    | (.ok (r, _), w') => (.ok r, w')
    | (.error e, w') => (.error e, w')
  | attempt, fuel + 1, w =>
    match step.action attempt (dictMerge sagaCtx step.context) w with
    | (.ok (r, _), w') => (.ok r, w')
    | (.error _, w') => execute_step_aux sagaCtx step (attempt + 1) fuel w'

/-- `SagaOrchestrator._execute_step`: up to `max_retries + 1` attempts. -/
def execute_step (sagaCtx : PyDict) (step : SagaStep W) (w : W) : Except String PyVal × W :=
  execute_step_aux sagaCtx step 0 step.max_retries w

/-- `SagaOrchestrator._compensate_step`: merged context, plus
`step_result` when the recorded result is truthy; exceptions inside the
compensation are caught and logged. -/
def compensate_step (sagaCtx : PyDict) (step : SagaStep W) (result : PyVal) (w : W) : W :=
  let combined := dictMerge sagaCtx step.context
  let combined := if truthy result then dictSet combined "step_result" result else combined
  (step.compensation combined w).2

/-- `SagaOrchestrator._compensate_saga`: compensates the executed steps in
reverse order (each of them has status `COMPLETED`), collecting the names
of the steps whose compensation was invoked, in invocation order. -/
def compensate_saga (sagaCtx : PyDict) (executed : List (SagaStep W × PyVal)) (w : W) :
    W × List String :=
  executed.reverse.foldl
    (fun acc sr => (compensate_step sagaCtx sr.1 sr.2 acc.1, acc.2 ++ [sr.1.name]))
    (w, [])

structure SagaRunResult (W : Type) where
  success : Bool
  world : W
  executed : List String
  compensated : List String
  error : Option String

/-- The step loop of `SagaOrchestrator.execute_saga`: forward-execute each
step, accumulating the completed steps with their results; on a step
failure, compensate them in reverse order and return `False` with the
failed step's error (`saga.error`). -/
def execute_saga_aux (sagaCtx : PyDict) :
    List (SagaStep W) → W → List (SagaStep W × PyVal) → SagaRunResult W
  | [], w, executed => ⟨true, w, executed.map (·.1.name), [], none⟩
  | s :: rest, w, executed =>
    match execute_step sagaCtx s w with
    | (.ok r, w') => execute_saga_aux sagaCtx rest w' (executed ++ [(s, r)])
    | (.error e, w') =>
      let c := compensate_saga sagaCtx executed w'
      ⟨false, c.1, executed.map (·.1.name), c.2, some e⟩

/-- `SagaOrchestrator.execute_saga`. -/
def execute_saga (sagaCtx : PyDict) (steps : List (SagaStep W)) (w : W) : SagaRunResult W :=
  execute_saga_aux sagaCtx steps w []

/-! ## Booking saga (`app/core/saga.py`, class `BookingSaga`)

The world threaded through the saga steps: the Redis state guarded by the
circuit breaker, the relational database, and the injected sources of
nondeterminism (wall clock, Redis server time, fresh uuid hex digits). -/

def BOOKING_EXPIRATION_MINUTES : Nat := 5

structure World where
  cb : CircuitBreaker
  redisUp : Bool
  store : SeatStore
  meta : MetaStore
  db : Db
  time : Int
  redis_ts : Int
  fresh_booking_id : String
  fresh_code_hex : String

/-- `BookingSaga._reserve_seats_redis` (step 1 action): reserve the seats
in Redis; on `success = False` raise
`Exception(f"Redis seat reservation failed for seats: ...")`. -/
def reserve_seats_redis_action (_attempt : Nat) (ctx : PyDict) (w : World) :
    Except String (PyVal × PyDict) × World :=
  match dictGet ctx "event_id", dictGet ctx "seat_ids",
        dictGet ctx "user_id", dictGet ctx "reservation_ttl" with
  | some (.pstr event_id), some (.pstrList seat_ids),
    some (.pstr user_id), some (.pnat ttl) =>
    let r := reserve_seats w.cb w.time w.redisUp w.store w.meta
      event_id seat_ids user_id ttl w.redis_ts
    let w' := { w with cb := r.2.1, store := r.2.2.1, meta := r.2.2.2 }
    if r.1.1 then (.ok (.presdict seat_ids w.time, ctx), w')
    else (.error ("Redis seat reservation failed for seats: " ++ pyStrList r.1.2), w')
  | _, _, _, _ => (.error "KeyError", w)

/-- `BookingSaga._release_seats_redis` (compensation 1). -/
def release_seats_redis_comp (ctx : PyDict) (w : World) : Bool × World :=
  match dictGet ctx "event_id", dictGet ctx "seat_ids", dictGet ctx "user_id" with
  | some (.pstr event_id), some (.pstrList seat_ids), some (.pstr user_id) =>
    let r := release_seat_reservations w.cb w.time w.redisUp w.store w.meta
      event_id seat_ids user_id
    (true, { w with cb := r.2.1, store := r.2.2.1, meta := r.2.2.2 })
  | _, _, _ => (false, w)

/-- `BookingSaga._create_booking_db` (step 2 body): one durable
transaction — lock and verify the event, lock the still-available seats
ordered by id, insert the booking (code `EVT` + 8 hex digits, status
pending, expiry now + BOOKING_EXPIRATION_MINUTES) and its booking seats,
move the seats to `reserved`, and only then write the booking summary into
the (merged, per-step) context. Raising leaves the database unchanged —
the transaction context rolls back. The returned ORM `Booking` object is
represented by its id. -/
def create_booking_db (db : Db) (now : Int) (new_booking_id code_hex : String)
    (ctx : PyDict) : Except String (PyVal × PyDict) × Db :=
  match dictGet ctx "event_id", dictGet ctx "seat_ids", dictGet ctx "user_id" with
  | some (.pstr event_id), some (.pstrList seat_ids), some (.pstr user_id) =>
    match db.events.find? (fun e => e.id = event_id) with
    | none => (.error ("Event " ++ event_id ++ " not found"), db)
    | some ev =>
      if ev.start_time ≤ now then
        (.error "Cannot book tickets for past or ongoing events", db)
      else
        let available_seats := List.insertionSort (fun a b => strLeB a.id b.id = true)
          (db.seats.filter (fun s =>
            s.event_id = event_id ∧ s.id ∈ seat_ids ∧ s.status = SeatStatus.available))
        if available_seats.length ≠ seat_ids.length then
          let available_ids := available_seats.map (·.id)
          let unavailable_ids := seat_ids.filter (fun sid => sid ∉ available_ids)
          (.error ("Seats no longer available: " ++ pyStrSet unavailable_ids), db)
        else
          let total_amount := (available_seats.map (·.price)).sum
          let booking : BookingRow :=
            { id := new_booking_id
              user_id := user_id
              event_id := event_id
              booking_code := "EVT" ++ code_hex
              status := .pending
              total_amount := total_amount
              expires_at := now + (BOOKING_EXPIRATION_MINUTES : Int) * 60 }
          let new_booking_seats := available_seats.map
            (fun s => BookingSeatRow.mk new_booking_id s.id s.price)
          let seats' := db.seats.map (fun s =>
            if s.event_id = event_id ∧ s.id ∈ seat_ids ∧ s.status = SeatStatus.available then
              { s with status := .reserved, reserved_by := some user_id,
                       reserved_at := some now }
            else s)
          let summary : BookingResult :=
            ⟨new_booking_id, booking.booking_code, total_amount, booking.expires_at,
             available_seats.length⟩
          let ctx' := dictSet ctx "booking_result" (.pbooking summary)
          let db' := { db with
            bookings := db.bookings ++ [booking]
            booking_seats := db.booking_seats ++ new_booking_seats
            seats := seats' }
          (.ok (.pstr new_booking_id, ctx'), db')
  | _, _, _ => (.error "KeyError", db)

/-- Step 2 action wrapper over the world. -/
def create_booking_db_action (_attempt : Nat) (ctx : PyDict) (w : World) :
    Except String (PyVal × PyDict) × World :=
  let r := create_booking_db w.db w.time w.fresh_booking_id w.fresh_code_hex ctx
  (r.1, { w with db := r.2 })

/-- `BookingSaga._rollback_booking_db` (compensation 2): logs only. -/
def rollback_booking_db_comp (_ctx : PyDict) (w : World) : Bool × World := (true, w)

/-- The two steps assembled by `BookingSaga.create_booking_saga` (step
contexts are left empty, so the per-attempt merge copies `saga.context`). -/
def booking_saga_steps : List (SagaStep World) :=
  [ { name := "redis_seat_reservation"
      max_retries := 2
      action := reserve_seats_redis_action
      compensation := release_seats_redis_comp },
    { name := "database_booking_creation"
      max_retries := 1
      action := create_booking_db_action
      compensation := rollback_booking_db_comp } ]

/-- `BookingSaga.create_booking_saga`: sort the seat ids, build the saga
context, run the saga; on success return
`(True, saga.context.get('booking_result'))`, on failure
`(False, saga.error)`. `saga.context` is the dict created here — the
orchestrator merges it into fresh per-attempt dicts and never writes it. -/
def create_booking_saga (w : World) (event_id : String) (seat_ids : List String)
    (user_id : String) (booking_data : PyVal) :
    (Bool × PyVal × Option String) × World :=
  let sorted_seat_ids := pySorted seat_ids
  let ctx : PyDict :=
    [ ("event_id", .pstr event_id)
    , ("seat_ids", .pstrList sorted_seat_ids)
    , ("user_id", .pstr user_id)
    , ("booking_data", booking_data)
    , ("reservation_ttl", .pnat 600)
    , ("booking_result", .pnone) ]
  let r := execute_saga ctx booking_saga_steps w
  if r.success then ((true, dictGetD ctx "booking_result", none), r.world)
  else ((false, .pnone, r.error), r.world)

/-! ## Booking service (`app/api/v1/endpoints/bookings.py`) -/

/-- The error classification in
`ProductionBookingService.create_booking_atomic` and its translation to
HTTP statuses in the `create_booking` endpoint. -/
inductive CreateBookingOutcome where
  | success
  | seats_unavailable (msg : String)
  | reservation_failed (msg : String)
  | internal_error
  deriving DecidableEq

/-- The failure branch of `create_booking_atomic`: substring-match the
saga's terminal error (`str(result)`, `"None"` when absent). -/
def classify_saga_failure (error : Option String) : CreateBookingOutcome :=
  let msg := match error with | some m => m | none => "None"
  if strContainsB msg "no longer available" then .seats_unavailable msg
  else if strContainsB msg "reservation failed" then .reservation_failed msg
  else .internal_error

def create_booking_classify (sagaSuccess : Bool) (error : Option String) :
    CreateBookingOutcome :=
  if sagaSuccess then .success else classify_saga_failure error

/-- HTTP statuses raised by the `create_booking` endpoint:
`SeatUnavailableError` → 409 `seats_unavailable`,
`ReservationError` → 423 `reservation_failed`, unclassified → 500. -/
def create_booking_http_status : CreateBookingOutcome → Nat
  | .success => 200
  | .seats_unavailable _ => 409
  | .reservation_failed _ => 423
  | .internal_error => 500

/-- Outcome of `ProductionBookingService.confirm_booking`. -/
inductive ConfirmOutcome where
  | not_found
  | expired_err (expired_at : Int)
  | confirmed_ok (booking_code : String)
  deriving DecidableEq

/-- The seat ids associated to a booking through `booking_seats`. -/
def associated_seat_ids (db : Db) (bid : String) : List String :=
  (db.booking_seats.filter (fun bs => bs.booking_id = bid)).map (·.seat_id)

/-- `ProductionBookingService.confirm_booking`: select-for-update the
pending booking of this user; `404` when absent. When
`current_time > expires_at`, mark the booking expired, return every
associated seat to `available` clearing the holder fields, commit, and
raise `410 booking_expired`. Otherwise confirm: status `confirmed`,
`confirmed_at = now`, optional payment reference, associated seats to
`booked` (the post-commit best-effort Redis release is outside the
durable state modelled here). -/
def confirm_booking (db : Db) (booking_id user_id : String) (now : Int)
    (payment_reference : Option String) : ConfirmOutcome × Db :=
  match db.bookings.find? (fun b =>
      b.id = booking_id ∧ b.user_id = user_id ∧ b.status = BookingStatus.pending) with
  | none => (.not_found, db)
  | some booking =>
    let seat_ids := associated_seat_ids db booking.id
    if now > booking.expires_at then
      let db' := { db with
        bookings := db.bookings.map (fun b =>
          if b.id = booking.id then { b with status := .expired } else b)
        seats := db.seats.map (fun s =>
          if s.id ∈ seat_ids then
            { s with status := .available, reserved_by := none, reserved_at := none }
          else s) }
      (.expired_err booking.expires_at, db')
    else
      let db' := { db with
        bookings := db.bookings.map (fun b =>
          if b.id = booking.id then
            { b with status := .confirmed, confirmed_at := some now,
                     payment_reference :=
                       match payment_reference with
                       | some p => some p
                       | none => b.payment_reference }
          else b)
        seats := db.seats.map (fun s =>
          if s.id ∈ seat_ids then { s with status := .booked } else s) }
      (.confirmed_ok booking.booking_code, db')

/-! ## Concrete fixtures used to evaluate the definitions -/

/-- Whether the reservation key `k` currently belongs to holder `u`. -/
def owned_by (store : SeatStore) (k u : String) : Bool :=
  match store k with
  | some p => p.1 = u
  | none => false

/-- A saga step whose action always succeeds (fixture). -/
def demo_ok_step (nm : String) : SagaStep Unit :=
  { name := nm
    action := fun _ c w => (.ok (.pnat 1, c), w)
    compensation := fun _ w => (true, w) }

/-- A saga step whose action always raises and whose compensation also
raises (fixture). -/
def demo_fail_step (nm : String) : SagaStep Unit :=
  { name := nm
    action := fun _ _ w => (.error "boom", w)
    compensation := fun _ w => (false, w) }

/-- Event E1 (starts at t = 10000) with two available seats. -/
def c1db : Db :=
  { events := [⟨"E1", 10000⟩]
    seats := [ { id := "S1", event_id := "E1", price := 100, status := .available },
               { id := "S2", event_id := "E1", price := 150, status := .available } ]
    bookings := []
    booking_seats := [] }

/-- Healthy world at t = 100: breaker closed, Redis empty and reachable. -/
def c1world : World :=
  { cb := {}
    redisUp := true
    store := fun _ => none
    meta := fun _ => none
    db := c1db
    time := 100
    redis_ts := 100
    fresh_booking_id := "B1"
    fresh_code_hex := "0A1B2C3D" }

/-- Same world, but seat S1 of E1 is already soft-reserved by user U2. -/
def c2world : World :=
  { c1world with
    store := fun k => if k = seat_reservation_key "E1" "S1" then some ("U2", 600) else none }

/-- A pending booking B1 of user U1 over seat S1, expiring at t = 100. -/
def c3db : Db :=
  { events := [⟨"E1", 10000⟩]
    seats := [ { id := "S1", event_id := "E1", price := 100, status := .reserved,
                 reserved_by := some "U1", reserved_at := some 0 } ]
    bookings := [ { id := "B1", user_id := "U1", event_id := "E1",
                    booking_code := "EVTAAAA0001", status := .pending,
                    total_amount := 100, expires_at := 100 } ]
    booking_seats := [⟨"B1", "S1", 100⟩] }

/-- Redis state where only seat S1 of E1 is held, by user U1. -/
def c6store : SeatStore :=
  fun k => if k = seat_reservation_key "E1" "S1" then some ("U1", 600) else none

/-! ## Basic lemmas on the string helpers -/

theorem lexLe_total : ∀ as bs : List Char, lexLe as bs = true ∨ lexLe bs as = true := by
  intro as
  induction as with
  | nil => intro bs; left; rfl
  | cons a as ih =>
    intro bs
    cases bs with
    | nil => right; rfl
    | cons b bs =>
      simp only [lexLe]
      by_cases h1 : a.toNat < b.toNat
      · left; simp [h1]
      · by_cases h2 : b.toNat < a.toNat
        · right; simp [h1, h2]
        · rcases ih bs with h | h
          · left; simp [h1, h2, h]
          · right; simp [h1, h2, h]

theorem lexLe_head_cases {a b : Char} {as bs : List Char}
    (h : lexLe (a :: as) (b :: bs) = true) :
    a.toNat < b.toNat ∨ (a.toNat = b.toNat ∧ lexLe as bs = true) := by
  simp only [lexLe] at h
  by_cases h1 : a.toNat < b.toNat
  · left; exact h1
  · by_cases h2 : b.toNat < a.toNat
    · simp [h1, h2] at h
    · right; constructor
      · omega
      · simpa [h1, h2] using h

theorem lexLe_trans :
    ∀ as bs cs : List Char, lexLe as bs = true → lexLe bs cs = true → lexLe as cs = true := by
  intro as
  induction as with
  | nil => intro bs cs _ _; rfl
  | cons a as ih =>
    intro bs cs hab hbc
    cases bs with
    | nil => simp [lexLe] at hab
    | cons b bs =>
      cases cs with
      | nil => simp [lexLe] at hbc
      | cons c cs =>
        rcases lexLe_head_cases hab with h1 | ⟨h1, htl1⟩ <;>
          rcases lexLe_head_cases hbc with h2 | ⟨h2, htl2⟩ <;>
          simp only [lexLe]
        · have : a.toNat < c.toNat := by omega
          simp [this]
        · have : a.toNat < c.toNat := by omega
          simp [this]
        · have : a.toNat < c.toNat := by omega
          simp [this]
        · have hac : a.toNat = c.toNat := by omega
          have h3 : ¬ a.toNat < c.toNat := by omega
          have h4 : ¬ c.toNat < a.toNat := by omega
          simp [h3, h4, ih bs cs htl1 htl2]

theorem strLeB_total : ∀ a b : String, strLeB a b = true ∨ strLeB b a = true := by
  intro a b; exact lexLe_total a.data b.data

theorem strLeB_trans :
    ∀ a b c : String, strLeB a b = true → strLeB b c = true → strLeB a c = true := by
  intro a b c; exact lexLe_trans a.data b.data c.data

theorem nil_isPrefixOf (l : List Char) : List.isPrefixOf [] l = true := by
  cases l <;> rfl

theorem isPrefixOf_append_self : ∀ n rest : List Char, n.isPrefixOf (n ++ rest) = true := by
  intro n
  induction n with
  | nil => intro rest; exact nil_isPrefixOf rest
  | cons a n ih => intro rest; simp [List.isPrefixOf, ih]

theorem listContainsB_self_append : ∀ n rest : List Char, listContainsB (n ++ rest) n = true := by
  intro n rest
  cases n with
  | nil =>
    cases rest with
    | nil => rfl
    | cons a t => simp [listContainsB, List.isPrefixOf]
  | cons a n' =>
    simp only [List.cons_append, listContainsB, Bool.or_eq_true]
    left
    exact isPrefixOf_append_self (a :: n') rest

theorem listContainsB_append_left :
    ∀ pre h n : List Char, listContainsB h n = true → listContainsB (pre ++ h) n = true := by
  intro pre
  induction pre with
  | nil => intro h n hh; simpa using hh
  | cons a pre ih =>
    intro h n hh
    simp only [List.cons_append, listContainsB, Bool.or_eq_true]
    right
    exact ih h n hh

theorem strContainsB_self_append (n rest : String) : strContainsB (n ++ rest) n = true := by
  unfold strContainsB
  rw [String.data_append]
  exact listContainsB_self_append n.data rest.data

theorem strContainsB_append_left (pre h n : String) (hh : strContainsB h n = true) :
    strContainsB (pre ++ h) n = true := by
  unfold strContainsB at hh ⊢
  rw [String.data_append]
  exact listContainsB_append_left pre.data h.data n.data hh

/-- The step-1 failure message always carries the `"reservation failed"`
marker that `create_booking_atomic` pattern-matches on. -/
theorem reserve_fail_msg_marker (failed : List String) :
    strContainsB ("Redis seat reservation failed for seats: " ++ pyStrList failed)
      "reservation failed" = true := by
  have hsplit : ("Redis seat reservation failed for seats: " : String)
      = "Redis seat " ++ ("reservation failed" ++ " for seats: ") := by decide
  rw [hsplit, String.append_assoc]
  apply strContainsB_append_left
  rw [String.append_assoc]
  exact strContainsB_self_append "reservation failed" (" for seats: " ++ pyStrList failed)

theorem mem_pyStrListInner :
    ∀ (l : List String) (x : String), x ∈ l → strContainsB (pyStrListInner l) x = true := by
  intro l
  induction l with
  | nil => intro x hx; simp at hx
  | cons y rest ih =>
    intro x hx
    cases rest with
    | nil =>
      simp only [List.mem_cons, List.not_mem_nil, or_false] at hx
      subst hx
      show strContainsB ("'" ++ x ++ "'") x = true
      rw [String.append_assoc]
      exact strContainsB_append_left "'" (x ++ "'") x (strContainsB_self_append x "'")
    | cons z rest' =>
      rcases List.mem_cons.mp hx with rfl | hmem
      · show strContainsB ("'" ++ x ++ "', " ++ pyStrListInner (z :: rest')) x = true
        rw [String.append_assoc, String.append_assoc]
        exact strContainsB_append_left "'" (x ++ ("', " ++ pyStrListInner (z :: rest'))) x
          (strContainsB_self_append x ("', " ++ pyStrListInner (z :: rest')))
      · show strContainsB ("'" ++ y ++ "', " ++ pyStrListInner (z :: rest')) x = true
        exact strContainsB_append_left ("'" ++ y ++ "', ") (pyStrListInner (z :: rest')) x
          (ih x hmem)

theorem isPrefixOf_append_right :
    ∀ n t s : List Char, n.isPrefixOf t = true → n.isPrefixOf (t ++ s) = true := by
  intro n
  induction n with
  | nil => intro t s _; exact nil_isPrefixOf (t ++ s)
  | cons a n ih =>
    intro t s h
    cases t with
    | nil => simp [List.isPrefixOf] at h
    | cons b t =>
      simp only [List.isPrefixOf, Bool.and_eq_true] at h
      simp only [List.cons_append, List.isPrefixOf, Bool.and_eq_true]
      exact ⟨h.1, ih t s h.2⟩

theorem listContainsB_nil_needle : ∀ h : List Char, listContainsB h [] = true := by
  intro h
  cases h with
  | nil => rfl
  | cons a t => simp [listContainsB, List.isPrefixOf]

theorem listContainsB_append_right :
    ∀ h s n : List Char, listContainsB h n = true → listContainsB (h ++ s) n = true := by
  intro h
  induction h with
  | nil =>
    intro s n hn
    simp only [listContainsB, List.isEmpty_iff] at hn
    subst hn
    simpa using listContainsB_nil_needle s
  | cons a t ih =>
    intro s n hn
    simp only [listContainsB, Bool.or_eq_true] at hn
    simp only [List.cons_append, listContainsB, Bool.or_eq_true]
    rcases hn with hn | hn
    · left
      have : n.isPrefixOf ((a :: t) ++ s) = true := isPrefixOf_append_right n (a :: t) s hn
      simpa using this
    · right; exact ih s n hn

theorem strContainsB_append_right (h s n : String) (hh : strContainsB h n = true) :
    strContainsB (h ++ s) n = true := by
  unfold strContainsB at hh ⊢
  rw [String.data_append]
  exact listContainsB_append_right h.data s.data n.data hh

/-- Every failed seat id is named in the step-1 failure message. -/
theorem mem_reserve_fail_msg (failed : List String) (x : String) (hx : x ∈ failed) :
    strContainsB ("Redis seat reservation failed for seats: " ++ pyStrList failed) x = true := by
  apply strContainsB_append_left
  unfold pyStrList
  exact strContainsB_append_right ("[" ++ pyStrListInner failed) "]" x
    (strContainsB_append_left "[" (pyStrListInner failed) x (mem_pyStrListInner failed x hx))

/-! ## Lemmas on the Redis store scripts -/

theorem seat_reservation_key_inj (e s₁ s₂ : String)
    (h : seat_reservation_key e s₁ = seat_reservation_key e s₂) : s₁ = s₂ := by
  unfold seat_reservation_key at h
  have hd := congrArg String.data h
  rw [String.data_append, String.data_append] at hd
  have htail := List.append_cancel_left hd
  cases s₁; cases s₂; simp_all

theorem reserve_write_mem (e u : String) (ttl : Nat) (ts : Int) (sid : String) :
    ∀ (ids : List String) (store : SeatStore) (meta : MetaStore),
      (sid ∈ ids ∨ store (seat_reservation_key e sid) = some (u, ttl)) →
      (reserve_write e u ttl ts store meta ids).1 (seat_reservation_key e sid)
        = some (u, ttl) := by
  intro ids
  induction ids with
  | nil =>
    intro store meta h
    rcases h with h | h
    · simp at h
    · exact h
  | cons x rest ih =>
    intro store meta h
    show (reserve_write e u ttl ts _ _ rest).1 _ = _
    apply ih
    rcases h with h | h
    · rcases List.mem_cons.mp h with rfl | hmem
      · right; simp
      · left; exact hmem
    · right
      by_cases hk : seat_reservation_key e sid = seat_reservation_key e x
      · simp [hk]
      · simp [hk, h]

theorem reserve_write_other (e u : String) (ttl : Nat) (ts : Int) :
    ∀ (ids : List String) (store : SeatStore) (meta : MetaStore) (k : String),
      (∀ sid ∈ ids, k ≠ seat_reservation_key e sid) →
      (reserve_write e u ttl ts store meta ids).1 k = store k := by
  intro ids
  induction ids with
  | nil => intro store meta k _; rfl
  | cons x rest ih =>
    intro store meta k hk
    show (reserve_write e u ttl ts _ _ rest).1 k = store k
    rw [ih _ _ k (fun sid hs => hk sid (List.mem_cons_of_mem x hs))]
    simp [hk x (List.mem_cons_self x rest)]

theorem release_script_none (e u : String) :
    ∀ (ids : List String) (store : SeatStore) (meta : MetaStore) (k : String),
      store k = none → (release_script e u store meta ids).2.1 k = none := by
  intro ids
  induction ids with
  | nil => intro store meta k hk; exact hk
  | cons sid rest ih =>
    intro store meta k hk
    simp only [release_script]
    cases hstore : store (seat_reservation_key e sid) with
    | none => exact ih _ _ _ hk
    | some p =>
      obtain ⟨o, t⟩ := p
      by_cases ho : o = u
      · simp only [ho, if_pos]
        apply ih
        by_cases hkk : k = seat_reservation_key e sid <;> simp [hkk, hk]
      · simp only [ho, if_neg, ite_false]
        exact ih _ _ _ hk

theorem release_script_foreign (e u : String) :
    ∀ (ids : List String) (store : SeatStore) (meta : MetaStore) (k : String) (o : String)
      (t : Nat), store k = some (o, t) → o ≠ u →
      (release_script e u store meta ids).2.1 k = some (o, t) := by
  intro ids
  induction ids with
  | nil => intro store meta k o t hk _; exact hk
  | cons sid rest ih =>
    intro store meta k o t hk ho
    simp only [release_script]
    cases hstore : store (seat_reservation_key e sid) with
    | none => exact ih _ _ _ _ _ hk ho
    | some p =>
      obtain ⟨o', t'⟩ := p
      by_cases ho' : o' = u
      · simp only [ho', if_pos]
        apply ih _ _ _ _ _ _ ho
        have hkk : k ≠ seat_reservation_key e sid := by
          intro hcon
          rw [hcon, hstore] at hk
          exact ho (by injection hk with h1; injection h1 with h2 h3; rw [← ho', h2])
        simp [hkk, hk]
      · simp only [ho', if_neg, ite_false]
        exact ih _ _ _ _ _ hk ho

theorem release_script_owned (e u : String) :
    ∀ (ids : List String) (store : SeatStore) (meta : MetaStore) (sid : String),
      sid ∈ ids →
      (store (seat_reservation_key e sid) = none ∨
        ∃ t, store (seat_reservation_key e sid) = some (u, t)) →
      (release_script e u store meta ids).2.1 (seat_reservation_key e sid) = none := by
  intro ids
  induction ids with
  | nil => intro store meta sid hmem _; simp at hmem
  | cons x rest ih =>
    intro store meta sid hmem hsid
    simp only [release_script]
    cases hstore : store (seat_reservation_key e x) with
    | none =>
      rcases List.mem_cons.mp hmem with rfl | hmem'
      · rcases hsid with h | ⟨t, h⟩
        · exact release_script_none e u rest _ _ _ h
        · rw [h] at hstore; cases hstore
      · exact ih _ _ _ hmem' hsid
    | some p =>
      obtain ⟨o, t⟩ := p
      by_cases ho : o = u
      · simp only [ho, if_pos]
        rcases List.mem_cons.mp hmem with rfl | hmem'
        · apply release_script_none
          simp
        · apply ih _ _ _ hmem'
          by_cases hkk : seat_reservation_key e sid = seat_reservation_key e x
          · left; simp [hkk]
          · simp only [hkk, ite_false]
            exact hsid
      · simp only [ho, if_neg, ite_false]
        rcases List.mem_cons.mp hmem with rfl | hmem'
        · rcases hsid with h | ⟨t', h⟩
          · rw [h] at hstore; cases hstore
          · rw [h] at hstore
            injection hstore with h1
            injection h1 with h2 h3
            exact absurd h2.symm ho
        · exact ih _ _ _ hmem' hsid

theorem release_script_untouched (e u : String) :
    ∀ (ids : List String) (store : SeatStore) (meta : MetaStore) (k : String),
      (∀ sid ∈ ids, k ≠ seat_reservation_key e sid) →
      (release_script e u store meta ids).2.1 k = store k := by
  intro ids
  induction ids with
  | nil => intro store meta k _; rfl
  | cons x rest ih =>
    intro store meta k hk
    simp only [release_script]
    cases hstore : store (seat_reservation_key e x) with
    | none => exact ih _ _ _ (fun sid hs => hk sid (List.mem_cons_of_mem x hs))
    | some p =>
      obtain ⟨o, t⟩ := p
      by_cases ho : o = u
      · simp only [ho, if_pos]
        rw [ih _ _ _ (fun sid hs => hk sid (List.mem_cons_of_mem x hs))]
        simp [hk x (List.mem_cons_self x rest)]
      · simp only [ho, if_neg, ite_false]
        exact ih _ _ _ (fun sid hs => hk sid (List.mem_cons_of_mem x hs))

theorem release_script_count_le (e u : String) :
    ∀ (ids : List String) (store : SeatStore) (meta : MetaStore),
      (release_script e u store meta ids).1 ≤ ids.length := by
  intro ids
  induction ids with
  | nil => intro store meta; exact Nat.le_refl 0
  | cons x rest ih =>
    intro store meta
    simp only [release_script, List.length_cons]
    cases hstore : store (seat_reservation_key e x) with
    | none => exact Nat.le_succ_of_le (ih _ _)
    | some p =>
      obtain ⟨o, t⟩ := p
      by_cases ho : o = u
      · simp only [ho, if_pos]
        exact Nat.succ_le_succ (ih _ _)
      · simp only [ho, if_neg, ite_false]
        exact Nat.le_succ_of_le (ih _ _)

theorem release_script_congr (e u : String) :
    ∀ (ids : List String) (s₁ : SeatStore) (m₁ : MetaStore) (s₂ : SeatStore) (m₂ : MetaStore),
      (∀ sid ∈ ids, s₁ (seat_reservation_key e sid) = s₂ (seat_reservation_key e sid)) →
      (release_script e u s₁ m₁ ids).1 = (release_script e u s₂ m₂ ids).1 := by
  intro ids
  induction ids with
  | nil => intro s₁ m₁ s₂ m₂ _; rfl
  | cons x rest ih =>
    intro s₁ m₁ s₂ m₂ hagree
    have hx := hagree x (List.mem_cons_self x rest)
    simp only [release_script]
    rw [← hx]
    cases hstore : s₁ (seat_reservation_key e x) with
    | none => exact ih _ _ _ _ (fun sid hs => hagree sid (List.mem_cons_of_mem x hs))
    | some p =>
      obtain ⟨o, t⟩ := p
      by_cases ho : o = u
      · simp only [ho, if_pos]
        have := ih (fun k => if k = seat_reservation_key e x then none else s₁ k)
          (fun k => if k = seat_reservation_key e x ++ ":meta" then none else m₁ k)
          (fun k => if k = seat_reservation_key e x then none else s₂ k)
          (fun k => if k = seat_reservation_key e x ++ ":meta" then none else m₂ k)
          (fun sid hs => by
            by_cases hkk : seat_reservation_key e sid = seat_reservation_key e x
            · simp [hkk]
            · simp only [hkk, ite_false]
              exact hagree sid (List.mem_cons_of_mem x hs))
        simp only [this]
      · simp only [ho, if_neg, ite_false]
        exact ih _ _ _ _ (fun sid hs => hagree sid (List.mem_cons_of_mem x hs))

theorem release_script_count (e u : String) :
    ∀ (ids : List String) (store : SeatStore) (meta : MetaStore), ids.Nodup →
      (release_script e u store meta ids).1 =
        (ids.filter (fun sid => owned_by store (seat_reservation_key e sid) u)).length := by
  intro ids
  induction ids with
  | nil => intro store meta _; rfl
  | cons x rest ih =>
    intro store meta hnd
    obtain ⟨hx, hnd'⟩ := List.nodup_cons.mp hnd
    simp only [release_script]
    cases hstore : store (seat_reservation_key e x) with
    | none =>
      have hpred : owned_by store (seat_reservation_key e x) u = false := by
        simp [owned_by, hstore]
      simp only [List.filter_cons, hpred, Bool.false_eq_true, if_neg, ite_false]
      exact ih _ _ hnd'
    | some p =>
      obtain ⟨o, t⟩ := p
      by_cases ho : o = u
      · have hpred : owned_by store (seat_reservation_key e x) u = true := by
          simp [owned_by, hstore, ho]
        simp only [ho, if_pos, List.filter_cons, hpred, if_pos, List.length_cons]
        have hcongr := release_script_congr e u rest
          (fun k => if k = seat_reservation_key e x then none else store k)
          (fun k => if k = seat_reservation_key e x ++ ":meta" then none else meta k)
          store meta
          (fun sid hs => by
            have : seat_reservation_key e sid ≠ seat_reservation_key e x := by
              intro hcon
              exact hx (seat_reservation_key_inj e sid x hcon ▸ hs)
            simp [this])
        rw [hcongr, ih _ _ hnd']
      · have hpred : owned_by store (seat_reservation_key e x) u = false := by
          simp [owned_by, hstore, ho]
        simp only [ho, if_neg, ite_false, List.filter_cons, hpred, Bool.false_eq_true]
        exact ih _ _ hnd'

/-! ## Lemmas on the saga orchestrator -/

theorem compensate_fold_names (ctx : PyDict) :
    ∀ (l : List (SagaStep W × PyVal)) (w : W) (acc : List String),
      (l.foldl (fun acc' sr => (compensate_step ctx sr.1 sr.2 acc'.1, acc'.2 ++ [sr.1.name]))
          (w, acc)).2
        = acc ++ l.map (fun sr => sr.1.name) := by
  intro l
  induction l with
  | nil => intro w acc; simp
  | cons x t ih =>
    intro w acc
    simp only [List.foldl_cons, List.map_cons]
    rw [ih]
    simp

/-- `_compensate_saga` invokes the compensation of every executed step, in
reverse execution order — whatever each compensation returns (a raising
compensation is caught, so the chain never stops early). -/
theorem compensate_saga_names (ctx : PyDict) (ex : List (SagaStep W × PyVal)) (w : W) :
    (compensate_saga ctx ex w).2 = (ex.map (fun sr => sr.1.name)).reverse := by
  unfold compensate_saga
  rw [compensate_fold_names]
  simp

theorem execute_saga_aux_spec (ctx : PyDict) :
    ∀ (steps : List (SagaStep W)) (w : W) (acc : List (SagaStep W × PyVal)),
      ((execute_saga_aux ctx steps w acc).success = true →
          (execute_saga_aux ctx steps w acc).executed
            = acc.map (fun sr => sr.1.name) ++ steps.map (fun s => s.name) ∧
          (execute_saga_aux ctx steps w acc).compensated = [] ∧
          (execute_saga_aux ctx steps w acc).error = none)
      ∧ ((execute_saga_aux ctx steps w acc).success = false →
          ∃ k, k < steps.length ∧
            (execute_saga_aux ctx steps w acc).executed
              = acc.map (fun sr => sr.1.name) ++ (steps.map (fun s => s.name)).take k ∧
            (execute_saga_aux ctx steps w acc).compensated
              = (execute_saga_aux ctx steps w acc).executed.reverse ∧
            (execute_saga_aux ctx steps w acc).error.isSome = true) := by
  intro steps
  induction steps with
  | nil =>
    intro w acc
    constructor
    · intro _
      refine ⟨by simp [execute_saga_aux], rfl, rfl⟩
    · intro h
      simp [execute_saga_aux] at h
  | cons s rest ih =>
    intro w acc
    simp only [execute_saga_aux]
    rcases hstep : execute_step ctx s w with ⟨res, w'⟩
    cases res with
    | ok r =>
      have hrec := ih w' (acc ++ [(s, r)])
      constructor
      · intro hsucc
        obtain ⟨h1, h2, h3⟩ := hrec.1 hsucc
        refine ⟨?_, h2, h3⟩
        rw [h1]
        simp
      · intro hfail
        obtain ⟨k, hk, h1, h2, h3⟩ := hrec.2 hfail
        refine ⟨k + 1, by simpa using Nat.succ_lt_succ hk, ?_, h2, h3⟩
        rw [h1]
        simp
    | error e =>
      constructor
      · intro hsucc
        simp at hsucc
      · intro _
        refine ⟨0, Nat.succ_pos _, by simp, ?_, rfl⟩
        show (compensate_saga ctx acc w').2 = _
        rw [compensate_saga_names]

/-- C5: `execute_saga` returns `true` iff every forward step completed;
when a step fails after exhausting its retries, exactly the previously
completed steps are compensated, in reverse order of execution (the
`compensated` transcript equals the reverse of the `executed` one), and —
since the statement quantifies over arbitrary compensation functions,
including ones that raise — an exception thrown by one compensation never
prevents the remaining, earlier compensations from running
(`compensate_saga` records every executed step's compensation). -/
theorem c5_execute_saga_compensation (ctx : PyDict) (steps : List (SagaStep W)) (w : W) :
    ((execute_saga ctx steps w).success = true ↔
        (execute_saga ctx steps w).executed.length = steps.length)
    ∧ ((execute_saga ctx steps w).success = true →
        (execute_saga ctx steps w).executed = steps.map (fun s => s.name) ∧
        (execute_saga ctx steps w).compensated = [] ∧
        (execute_saga ctx steps w).error = none)
    ∧ ((execute_saga ctx steps w).success = false →
        ∃ k, k < steps.length ∧
          (execute_saga ctx steps w).executed = (steps.map (fun s => s.name)).take k ∧
          (execute_saga ctx steps w).compensated
            = (execute_saga ctx steps w).executed.reverse ∧
          (execute_saga ctx steps w).error.isSome = true)
    ∧ (∀ (ex : List (SagaStep W × PyVal)) (w' : W),
        (compensate_saga ctx ex w').2 = (ex.map (fun sr => sr.1.name)).reverse) := by
  have h := execute_saga_aux_spec ctx steps w []
  simp only [List.map_nil, List.nil_append] at h
  unfold execute_saga
  refine ⟨?_, h.1, h.2, fun ex w' => compensate_saga_names ctx ex w'⟩
  constructor
  · intro hsucc
    rw [(h.1 hsucc).1]
    simp
  · intro hlen
    cases hsucc : (execute_saga_aux ctx steps w []).success with
    | true => rfl
    | false =>
      obtain ⟨k, hk, h1, _, _⟩ := h.2 hsucc
      rw [h1] at hlen
      rw [List.length_take, List.length_map] at hlen
      omega

/-- Witness for C5: a two-step saga whose second step fails (and whose
compensations raise) still compensates the executed prefix in reverse
order; a one-step saga that succeeds reports success with the full
transcript. -/
theorem c5_execute_saga_compensation_witness :
    (execute_saga [] [demo_ok_step "a", demo_fail_step "b"] ()).success = false
    ∧ (execute_saga [] [demo_ok_step "a", demo_fail_step "b"] ()).compensated
        = (execute_saga [] [demo_ok_step "a", demo_fail_step "b"] ()).executed.reverse
    ∧ (execute_saga [] [demo_ok_step "a"] ()).success = true
    ∧ (execute_saga [] [demo_ok_step "a"] ()).executed = ["a"] := by
  refine ⟨by rfl, ?_, ?_, ?_⟩
  · obtain ⟨k, hk, h1, h2, h3⟩ :=
      (c5_execute_saga_compensation [] [demo_ok_step "a", demo_fail_step "b"] ()).2.2.1 (by rfl)
    exact h2
  · exact (c5_execute_saga_compensation [] [demo_ok_step "a"] ()).1.mpr (by rfl)
  · exact ((c5_execute_saga_compensation [] [demo_ok_step "a"] ()).2.1 (by rfl)).1

/-- C7: the circuit breaker's state machine. (1) From `CLOSED`, `is_open`
admits the call unchanged; (2) a recorded failure opens the breaker iff it
is the `failure_threshold`-th consecutive one, and (3) a success resets the
consecutive-failure count (and probe count) returning to `CLOSED`; (4) from
`OPEN` a call is admitted again iff `recovery_timeout` has elapsed since
the last failure, (5) entering `HALF_OPEN` with the probe counter reset;
(6) in `HALF_OPEN` once `half_open_max_calls` probes are used further calls
are rejected without invoking the wrapped function; (7) a half-open probe
that succeeds returns the breaker to `CLOSED` with counters reset; (8) a
single half-open failure returns it to `OPEN`; (9) while `OPEN` and not yet
recovered, every caller fails immediately with the state untouched and the
wrapped function never invoked (the result is `rejectedOpen`, not
`ok`/`raised`). -/
theorem c7_circuit_breaker_state_machine :
    (∀ (cb : CircuitBreaker) (now : Int), cb.state = .closed → cb.is_open now = (false, cb))
    ∧ (∀ (cb : CircuitBreaker) (now : Int), cb.state = .closed →
        ((cb.record_failure now).state = .opened ↔ cb.failure_threshold ≤ cb.failure_count + 1))
    ∧ (∀ cb : CircuitBreaker,
        cb.record_success.state = .closed ∧ cb.record_success.failure_count = 0 ∧
          cb.record_success.half_open_calls = 0)
    ∧ (∀ (cb : CircuitBreaker) (now t : Int), cb.state = .opened →
        cb.last_failure_time = some t →
        (((cb.is_open now).1 = false) ↔ cb.recovery_timeout ≤ now - t))
    ∧ (∀ (cb : CircuitBreaker) (now t : Int), cb.state = .opened →
        cb.last_failure_time = some t → (cb.is_open now).1 = false →
        (cb.is_open now).2.state = .halfOpen ∧ (cb.is_open now).2.half_open_calls = 0)
    ∧ (∀ (cb : CircuitBreaker) (now : Int) (fr : Option Unit), cb.state = .halfOpen →
        cb.half_open_max_calls ≤ cb.half_open_calls →
        cb.call now fr = (.rejectedHalfOpen, cb))
    ∧ (∀ (cb : CircuitBreaker) (now : Int) (a : Unit), cb.state = .halfOpen →
        cb.half_open_calls < cb.half_open_max_calls →
        (cb.call now (some a)).1 = .ok a ∧ (cb.call now (some a)).2.state = .closed ∧
          (cb.call now (some a)).2.failure_count = 0 ∧
          (cb.call now (some a)).2.half_open_calls = 0)
    ∧ (∀ (cb : CircuitBreaker) (now : Int), cb.state = .halfOpen →
        cb.half_open_calls < cb.half_open_max_calls →
        (cb.call now (none : Option Unit)).1 = .raised ∧
          (cb.call now (none : Option Unit)).2.state = .opened)
    ∧ (∀ (cb : CircuitBreaker) (now t : Int) (fr : Option Unit), cb.state = .opened →
        cb.last_failure_time = some t → now - t < cb.recovery_timeout →
        cb.call now fr = (.rejectedOpen, cb)) := by
  refine ⟨?_, ?_, ?_, ?_, ?_, ?_, ?_, ?_, ?_⟩
  · intro cb now hcb
    simp [CircuitBreaker.is_open, hcb]
  · intro cb now hcb
    by_cases h : cb.failure_threshold ≤ cb.failure_count + 1 <;>
      simp [CircuitBreaker.record_failure, hcb, h, ge_iff_le]
  · intro cb
    exact ⟨rfl, rfl, rfl⟩
  · intro cb now t hcb hlf
    by_cases h : cb.recovery_timeout ≤ now - t <;>
      simp [CircuitBreaker.is_open, hcb, hlf, h, ge_iff_le]
  · intro cb now t hcb hlf hopen
    by_cases h : cb.recovery_timeout ≤ now - t
    · simp [CircuitBreaker.is_open, hcb, hlf, h, ge_iff_le]
    · simp [CircuitBreaker.is_open, hcb, hlf, h, ge_iff_le] at hopen
  · intro cb now fr hcb hmax
    simp [CircuitBreaker.call, CircuitBreaker.is_open, hcb, hmax, ge_iff_le]
  · intro cb now a hcb hlt
    have hmax : ¬ cb.half_open_max_calls ≤ cb.half_open_calls := Nat.not_le.mpr hlt
    simp [CircuitBreaker.call, CircuitBreaker.is_open, CircuitBreaker.record_success,
      hcb, hmax, ge_iff_le]
  · intro cb now hcb hlt
    have hmax : ¬ cb.half_open_max_calls ≤ cb.half_open_calls := Nat.not_le.mpr hlt
    simp [CircuitBreaker.call, CircuitBreaker.is_open, CircuitBreaker.record_failure,
      hcb, hmax, ge_iff_le]
  · intro cb now t fr hcb hlf hlt
    have h : ¬ cb.recovery_timeout ≤ now - t := not_le.mpr hlt
    simp [CircuitBreaker.call, CircuitBreaker.is_open, hcb, hlf, h, ge_iff_le]

/-- Witness for C7: the default breaker opens on its fifth consecutive
failure; an open breaker rejects a call 10 s after the failure (timeout
60 s) leaving the state unchanged; a successful half-open probe closes the
breaker. -/
theorem c7_circuit_breaker_witness :
    (({ failure_count := 4 } : CircuitBreaker).record_failure 0).state = CBState.opened
    ∧ ({ state := .opened, last_failure_time := some 0 } : CircuitBreaker).call 10
        (none : Option Unit)
        = (.rejectedOpen, { state := .opened, last_failure_time := some 0 })
    ∧ ((({ state := .halfOpen } : CircuitBreaker).call 0 (some ())).2.state = CBState.closed) := by
  refine ⟨?_, ?_, ?_⟩
  · exact (c7_circuit_breaker_state_machine.2.1 { failure_count := 4 } 0 rfl).mpr (by decide)
  · exact c7_circuit_breaker_state_machine.2.2.2.2.2.2.2.2
      { state := .opened, last_failure_time := some 0 } 10 0 none rfl rfl (by decide)
  · exact (c7_circuit_breaker_state_machine.2.2.2.2.2.2.1
      { state := .halfOpen } 0 () rfl (by decide)).2.1

/-- C10: when the store call raises (`redisUp = false`) or the circuit
breaker rejects the call (open, or half-open probe limit reached),
`reserve_seats` does not propagate the exception: it returns normally with
`(False, seat_ids)` — the failed list being the entire requested seat-id
list — and the store untouched, indistinguishable by the return value from
seat contention. -/
theorem c10_reserve_seats_swallows_exceptions
    (cb : CircuitBreaker) (now : Int) (store : SeatStore) (meta : MetaStore)
    (event_id : String) (seat_ids : List String) (user_id : String) (ttl : Nat) (ts : Int) :
    (cb.state = .closed →
      reserve_seats cb now false store meta event_id seat_ids user_id ttl ts
        = ((false, seat_ids), cb.record_failure now, store, meta))
    ∧ (∀ t : Int, cb.state = .opened → cb.last_failure_time = some t →
        now - t < cb.recovery_timeout →
        ∀ redisUp, reserve_seats cb now redisUp store meta event_id seat_ids user_id ttl ts
          = ((false, seat_ids), cb, store, meta))
    ∧ (cb.state = .halfOpen → cb.half_open_max_calls ≤ cb.half_open_calls →
        ∀ redisUp, reserve_seats cb now redisUp store meta event_id seat_ids user_id ttl ts
          = ((false, seat_ids), cb, store, meta)) := by
  refine ⟨?_, ?_, ?_⟩
  · intro hcb
    simp [reserve_seats, CircuitBreaker.call, CircuitBreaker.is_open, hcb]
  · intro t hcb hlf hlt redisUp
    have h : ¬ cb.recovery_timeout ≤ now - t := not_le.mpr hlt
    cases redisUp <;>
      simp [reserve_seats, CircuitBreaker.call, CircuitBreaker.is_open, hcb, hlf, h, ge_iff_le]
  · intro hcb hmax redisUp
    cases redisUp <;>
      simp [reserve_seats, CircuitBreaker.call, CircuitBreaker.is_open, hcb, hmax, ge_iff_le]

/-- Witness for C10: with the store down the whole requested list comes
back as failed and the breaker records the failure; with the breaker open
(10 s after a failure, 60 s timeout) the same happens with no state
change. -/
theorem c10_reserve_seats_swallows_witness :
    reserve_seats {} 0 false (fun _ => none) (fun _ => none) "E1" ["S1"] "U1" 600 0
      = ((false, ["S1"]), ({} : CircuitBreaker).record_failure 0,
         (fun _ => none), (fun _ => none))
    ∧ reserve_seats { state := .opened, last_failure_time := some 0 } 10 true
        (fun _ => none) (fun _ => none) "E1" ["S1"] "U1" 600 0
      = ((false, ["S1"]), { state := .opened, last_failure_time := some 0 },
         (fun _ => none), (fun _ => none)) :=
  ⟨(c10_reserve_seats_swallows_exceptions {} 0 (fun _ => none) (fun _ => none)
      "E1" ["S1"] "U1" 600 0).1 rfl,
   (c10_reserve_seats_swallows_exceptions { state := .opened, last_failure_time := some 0 }
      10 (fun _ => none) (fun _ => none) "E1" ["S1"] "U1" 600 0).2.1 0 rfl rfl (by decide) true⟩

theorem reserve_seats_script_spec (store : SeatStore) (meta : MetaStore)
    (e u : String) (ttl : Nat) (ts : Int) (ids : List String) :
    ((∀ sid ∈ ids, store (seat_reservation_key e sid) = none) →
      reserve_seats_script store meta e u ttl ts ids
        = ((true, ids), (reserve_write e u ttl ts store meta ids).1,
           (reserve_write e u ttl ts store meta ids).2))
    ∧ ((¬ ∀ sid ∈ ids, store (seat_reservation_key e sid) = none) →
      reserve_seats_script store meta e u ttl ts ids
        = ((false, ids.filter (fun sid => (store (seat_reservation_key e sid)).isSome)),
           store, meta)
      ∧ ids.filter (fun sid => (store (seat_reservation_key e sid)).isSome) ≠ []) := by
  have hnil : ids.filter (fun sid => (store (seat_reservation_key e sid)).isSome) = []
      ↔ ∀ sid ∈ ids, store (seat_reservation_key e sid) = none := by
    rw [List.filter_eq_nil_iff]
    constructor
    · intro h sid hs
      exact Option.not_isSome_iff_eq_none.mp (by simpa using h sid hs)
    · intro h sid hs
      simp [h sid hs]
  constructor
  · intro hall
    have hf : ids.filter (fun sid => (store (seat_reservation_key e sid)).isSome) = [] :=
      hnil.mpr hall
    simp [reserve_seats_script, hf]
  · intro hnot
    have hf : ids.filter (fun sid => (store (seat_reservation_key e sid)).isSome) ≠ [] :=
      fun hcon => hnot (hnil.mp hcon)
    constructor
    · simp [reserve_seats_script, hf]
    · exact hf

/-- C4: with the breaker closed and the store reachable, `reserve_seats`
is all-or-nothing. Either every requested key was free: then each is newly
set to the holder with the requested TTL, no other key changes, and the
result is `(ok, [])`; or at least one key was taken: then no key is
created (the store is returned unchanged), and the result carries the
non-empty subset of the requested ids whose key already held a
reservation. The operation sorts the seat ids before issuing the atomic
script, so the failed subset comes back in sorted order. -/
theorem c4_reserve_seats_all_or_nothing
    (cb : CircuitBreaker) (now : Int) (store : SeatStore) (meta : MetaStore)
    (event_id : String) (seat_ids : List String) (user_id : String) (ttl : Nat) (ts : Int)
    (hcb : cb.state = .closed) (hnd : seat_ids.Nodup) :
    ((reserve_seats cb now true store meta event_id seat_ids user_id ttl ts).1 = (true, [])
      ↔ ∀ sid ∈ seat_ids, store (seat_reservation_key event_id sid) = none)
    ∧ ((∀ sid ∈ seat_ids, store (seat_reservation_key event_id sid) = none) →
        (∀ sid ∈ seat_ids,
          (reserve_seats cb now true store meta event_id seat_ids user_id ttl ts).2.2.1
            (seat_reservation_key event_id sid) = some (user_id, ttl))
        ∧ (∀ k : String, (∀ sid ∈ seat_ids, k ≠ seat_reservation_key event_id sid) →
            (reserve_seats cb now true store meta event_id seat_ids user_id ttl ts).2.2.1 k
              = store k))
    ∧ ((¬ ∀ sid ∈ seat_ids, store (seat_reservation_key event_id sid) = none) →
        (reserve_seats cb now true store meta event_id seat_ids user_id ttl ts).1.1 = false
        ∧ (reserve_seats cb now true store meta event_id seat_ids user_id ttl ts).2.2.1 = store
        ∧ (reserve_seats cb now true store meta event_id seat_ids user_id ttl ts).1.2
            = (pySorted seat_ids).filter
                (fun sid => (store (seat_reservation_key event_id sid)).isSome)
        ∧ (reserve_seats cb now true store meta event_id seat_ids user_id ttl ts).1.2 ≠ []
        ∧ (∀ sid,
            sid ∈ (reserve_seats cb now true store meta event_id seat_ids user_id ttl ts).1.2
              ↔ sid ∈ seat_ids ∧ (store (seat_reservation_key event_id sid)).isSome = true)
        ∧ List.Pairwise (fun a b => strLeB a b = true)
            (reserve_seats cb now true store meta event_id seat_ids user_id ttl ts).1.2) := by
  have hcall : ∀ x : (Bool × List String) × SeatStore × MetaStore,
      cb.call now (some x) = (.ok x, cb.record_success) := by
    intro x
    simp [CircuitBreaker.call, CircuitBreaker.is_open, hcb]
  have hmm : ∀ sid : String, sid ∈ pySorted seat_ids ↔ sid ∈ seat_ids := fun sid =>
    (List.perm_insertionSort _ seat_ids).mem_iff
  by_cases hall : ∀ sid ∈ seat_ids, store (seat_reservation_key event_id sid) = none
  · have hall' : ∀ sid ∈ pySorted seat_ids, store (seat_reservation_key event_id sid) = none :=
      fun sid hs => hall sid ((hmm sid).mp hs)
    have hscript := (reserve_seats_script_spec store meta event_id user_id ttl ts
      (pySorted seat_ids)).1 hall'
    have hres : reserve_seats cb now true store meta event_id seat_ids user_id ttl ts
        = ((true, []), cb.record_success,
           (reserve_write event_id user_id ttl ts store meta (pySorted seat_ids)).1,
           (reserve_write event_id user_id ttl ts store meta (pySorted seat_ids)).2) := by
      simp [reserve_seats, hscript, hcall]
    refine ⟨⟨fun _ => hall, fun _ => by rw [hres]⟩, fun _ => ⟨?_, ?_⟩, fun hcon => absurd hall hcon⟩
    · intro sid hsid
      rw [hres]
      exact reserve_write_mem event_id user_id ttl ts sid (pySorted seat_ids) store meta
        (Or.inl ((hmm sid).mpr hsid))
    · intro k hk
      rw [hres]
      exact reserve_write_other event_id user_id ttl ts (pySorted seat_ids) store meta k
        (fun sid hs => hk sid ((hmm sid).mp hs))
  · obtain ⟨hseq, hne⟩ := (reserve_seats_script_spec store meta event_id user_id ttl ts
      (pySorted seat_ids)).2 (fun hall' => hall (fun sid hs => hall' sid ((hmm sid).mpr hs)))
    have hres : reserve_seats cb now true store meta event_id seat_ids user_id ttl ts
        = ((false, (pySorted seat_ids).filter
              (fun sid => (store (seat_reservation_key event_id sid)).isSome)),
           cb.record_success, store, meta) := by
      simp [reserve_seats, hseq, hcall]
    refine ⟨⟨?_, fun hcon => absurd hcon hall⟩, fun hcon => absurd hcon hall,
      fun _ => ⟨by rw [hres], by rw [hres], by rw [hres], ?_, ?_, ?_⟩⟩
    · intro heq
      rw [hres] at heq
      simp at heq
    · rw [hres]
      exact hne
    · intro sid
      rw [hres]
      simp only [List.mem_filter, hmm sid]
    · rw [hres]
      haveI hTot : IsTotal String (fun a b => strLeB a b = true) := ⟨strLeB_total⟩
      haveI hTrans : IsTrans String (fun a b => strLeB a b = true) := ⟨strLeB_trans⟩
      exact (List.sorted_insertionSort _ seat_ids).filter _

/-- Witness for C4: on an empty store both requested seats are reserved
(result `(ok, [])`); against a store where S1 is already held, the call
fails naming exactly S1. -/
theorem c4_reserve_seats_witness :
    (reserve_seats {} 0 true (fun _ => none) (fun _ => none) "E1" ["S2", "S1"] "U1" 600 0).1
      = (true, [])
    ∧ (reserve_seats {} 0 true c6store (fun _ => none) "E1" ["S2", "S1"] "U2" 600 0).1.1
      = false := by
  constructor
  · exact ((c4_reserve_seats_all_or_nothing {} 0 (fun _ => none) (fun _ => none)
      "E1" ["S2", "S1"] "U1" 600 0 rfl (by decide)).1).mpr (fun sid _ => rfl)
  · exact ((c4_reserve_seats_all_or_nothing {} 0 c6store (fun _ => none)
      "E1" ["S2", "S1"] "U2" 600 0 rfl (by decide)).2.2 (by decide)).1

/-- C6 counterexample: against a store where, of the two requested seats,
only S1 is held by the caller, the Lua script actually releases 1 key —
but `release_seat_reservations` returns `false` (it returns the boolean
`released == len(seat_ids)`, not the released count). A caller reading the
return value cannot observe the count of keys actually released. -/
theorem c6_release_returns_bool_not_count :
    (release_seat_reservations {} 0 true c6store (fun _ => none) "E1" ["S1", "S2"] "U1").1
      = false
    ∧ (release_script "E1" "U1" c6store (fun _ => none) ["S1", "S2"]).1 = 1 := by
  constructor <;> rfl

/-- C6 (amended): with the breaker closed and the store reachable,
`release_seat_reservations` deletes exactly the requested keys currently
owned by the holder; keys that are absent or owned by another holder are
left untouched and cause no error; the released count (computed by the
script, between 0 and `|seat_ids|`, equal to the number of requested seats
the holder owns) is only compared against `len(seat_ids)`: the operation
returns that boolean, not the count. -/
theorem c6_release_only_owned
    (cb : CircuitBreaker) (now : Int) (store : SeatStore) (meta : MetaStore)
    (event_id : String) (seat_ids : List String) (user_id : String)
    (hcb : cb.state = .closed) (hnd : seat_ids.Nodup) :
    ((release_seat_reservations cb now true store meta event_id seat_ids user_id).1
        = decide ((release_script event_id user_id store meta seat_ids).1 = seat_ids.length))
    ∧ ((release_script event_id user_id store meta seat_ids).1
        = (seat_ids.filter
            (fun sid => owned_by store (seat_reservation_key event_id sid) user_id)).length)
    ∧ ((release_script event_id user_id store meta seat_ids).1 ≤ seat_ids.length)
    ∧ (∀ sid ∈ seat_ids, ∀ t : Nat,
        store (seat_reservation_key event_id sid) = some (user_id, t) →
        (release_seat_reservations cb now true store meta event_id seat_ids user_id).2.2.1
          (seat_reservation_key event_id sid) = none)
    ∧ (∀ sid ∈ seat_ids, ∀ (o : String) (t : Nat),
        store (seat_reservation_key event_id sid) = some (o, t) → o ≠ user_id →
        (release_seat_reservations cb now true store meta event_id seat_ids user_id).2.2.1
          (seat_reservation_key event_id sid) = some (o, t))
    ∧ (∀ sid ∈ seat_ids, store (seat_reservation_key event_id sid) = none →
        (release_seat_reservations cb now true store meta event_id seat_ids user_id).2.2.1
          (seat_reservation_key event_id sid) = none)
    ∧ (∀ k : String, (∀ sid ∈ seat_ids, k ≠ seat_reservation_key event_id sid) →
        (release_seat_reservations cb now true store meta event_id seat_ids user_id).2.2.1 k
          = store k) := by
  have hcall : ∀ x : Nat × SeatStore × MetaStore,
      cb.call now (some x) = (.ok x, cb.record_success) := by
    intro x
    simp [CircuitBreaker.call, CircuitBreaker.is_open, hcb]
  rcases hscript : release_script event_id user_id store meta seat_ids with ⟨cnt, st', mt'⟩
  have hres : release_seat_reservations cb now true store meta event_id seat_ids user_id
      = (decide (cnt = seat_ids.length), cb.record_success, st', mt') := by
    simp [release_seat_reservations, hscript, hcall]
  refine ⟨by rw [hres], ?_, ?_, ?_, ?_, ?_, ?_⟩
  · show cnt = _
    have := release_script_count event_id user_id seat_ids store meta hnd
    rw [hscript] at this
    exact this
  · show cnt ≤ _
    have := release_script_count_le event_id user_id seat_ids store meta
    rw [hscript] at this
    exact this
  · intro sid hsid t hown
    rw [hres]
    show st' _ = none
    have := release_script_owned event_id user_id seat_ids store meta sid hsid
      (Or.inr ⟨t, hown⟩)
    rw [hscript] at this
    exact this
  · intro sid hsid o t hsome ho
    rw [hres]
    show st' _ = some (o, t)
    have := release_script_foreign event_id user_id seat_ids store meta
      (seat_reservation_key event_id sid) o t hsome ho
    rw [hscript] at this
    exact this
  · intro sid hsid hnone
    rw [hres]
    show st' _ = none
    have := release_script_none event_id user_id seat_ids store meta
      (seat_reservation_key event_id sid) hnone
    rw [hscript] at this
    exact this
  · intro k hk
    rw [hres]
    show st' k = store k
    have := release_script_untouched event_id user_id seat_ids store meta k hk
    rw [hscript] at this
    exact this

/-- Witness for C6 (amended): releasing the single held seat S1 reports
`true` (count 1 = length 1) and removes exactly its key. -/
theorem c6_release_only_owned_witness :
    (release_seat_reservations {} 0 true c6store (fun _ => none) "E1" ["S1"] "U1").1 = true
    ∧ (release_seat_reservations {} 0 true c6store (fun _ => none) "E1" ["S1"] "U1").2.2.1
        (seat_reservation_key "E1" "S1") = none := by
  constructor
  · rw [(c6_release_only_owned {} 0 c6store (fun _ => none) "E1" ["S1"] "U1" rfl
      (by decide)).1]
    rfl
  · exact (c6_release_only_owned {} 0 c6store (fun _ => none) "E1" ["S1"] "U1" rfl
      (by decide)).2.2.2.1 "S1" (by decide) 600 (by decide)

/-- C8: `is_rate_limited`. (1) With the breaker closed and the store
reachable, the wrapper returns exactly the atomic script's result (which
prunes entries older than the window before counting and records the
current call only when the pruned count is under the limit). (2) When the
store call raises, the wrapper fails open with `(false, 0)`, the window
untouched, after the breaker records the failure. (3) The script reports
"not limited" iff the pruned count is under the limit, and (4) the count
it reports equals the size of the window it leaves behind; hence (5)
within one window — when the second call's pruning removes nothing — the
reported current count is non-decreasing across successive calls. -/
theorem c8_rate_limiter
    (cb : CircuitBreaker) (now : Int) (entries : List (String × Int))
    (limit window : Nat) (ts : Int) (uid : String) (hcb : cb.state = .closed) :
    (is_rate_limited cb now true entries limit window ts uid
      = ((rate_limit_script entries limit window ts uid).1, cb.record_success,
         (rate_limit_script entries limit window ts uid).2))
    ∧ (is_rate_limited cb now false entries limit window ts uid
      = ((false, 0), cb.record_failure now, entries))
    ∧ (((rate_limit_script entries limit window ts uid).1.1 = false)
        ↔ (entries.filter
            (fun e => !(decide (0 ≤ e.2 ∧ e.2 ≤ ts - (window * 1000 : Nat))))).length < limit)
    ∧ ((rate_limit_script entries limit window ts uid).1.2
        = (rate_limit_script entries limit window ts uid).2.length)
    ∧ (∀ (ts₂ : Int) (uid₂ : String),
        ((rate_limit_script entries limit window ts uid).2.filter
            (fun e => !(decide (0 ≤ e.2 ∧ e.2 ≤ ts₂ - (window * 1000 : Nat))))
          = (rate_limit_script entries limit window ts uid).2) →
        (rate_limit_script entries limit window ts uid).1.2
          ≤ (rate_limit_script (rate_limit_script entries limit window ts uid).2
              limit window ts₂ uid₂).1.2) := by
  have hcall : ∀ x : (Bool × Nat) × List (String × Int),
      cb.call now (some x) = (.ok x, cb.record_success) := by
    intro x
    simp [CircuitBreaker.call, CircuitBreaker.is_open, hcb]
  have heq : ∀ (es : List (String × Int)) (t : Int) (u : String),
      rate_limit_script es limit window t u
        = if (es.filter (fun e => !(decide (0 ≤ e.2 ∧ e.2 ≤ t - (window * 1000 : Nat))))).length
              < limit then
            ((false, (es.filter
                (fun e => !(decide (0 ≤ e.2 ∧ e.2 ≤ t - (window * 1000 : Nat))))).length + 1),
             es.filter (fun e => !(decide (0 ≤ e.2 ∧ e.2 ≤ t - (window * 1000 : Nat))))
               ++ [(u, t)])
          else
            ((true, (es.filter
                (fun e => !(decide (0 ≤ e.2 ∧ e.2 ≤ t - (window * 1000 : Nat))))).length),
             es.filter (fun e => !(decide (0 ≤ e.2 ∧ e.2 ≤ t - (window * 1000 : Nat))))) :=
    fun es t u => rfl
  have h4 : (rate_limit_script entries limit window ts uid).1.2
      = (rate_limit_script entries limit window ts uid).2.length := by
    rw [heq]
    by_cases h : (entries.filter
        (fun e => !(decide (0 ≤ e.2 ∧ e.2 ≤ ts - (window * 1000 : Nat))))).length < limit
    · rw [if_pos h]
      simp
    · rw [if_neg h]
  refine ⟨?_, ?_, ?_, h4, ?_⟩
  · rcases hscript : rate_limit_script entries limit window ts uid with ⟨r, entries'⟩
    simp [is_rate_limited, hscript, hcall]
  · simp [is_rate_limited, CircuitBreaker.call, CircuitBreaker.is_open, hcb]
  · rw [heq]
    by_cases h : (entries.filter
        (fun e => !(decide (0 ≤ e.2 ∧ e.2 ≤ ts - (window * 1000 : Nat))))).length < limit
    · rw [if_pos h]
      exact iff_of_true rfl h
    · rw [if_neg h]
      exact iff_of_false (by simp) h
  · intro ts₂ uid₂ hpr
    rw [h4]
    rw [heq (rate_limit_script entries limit window ts uid).2 ts₂ uid₂, hpr]
    by_cases h : (rate_limit_script entries limit window ts uid).2.length < limit
    · rw [if_pos h]
      exact Nat.le_succ _
    · rw [if_neg h]

/-- Witness for C8: a first call on an empty window is admitted with
count 1; with the store down the call fails open; a second call 1 s later
within the same window reports a count no smaller than the first. -/
theorem c8_rate_limiter_witness :
    (is_rate_limited {} 0 true [] 5 60 1000 "u").1 = (false, 1)
    ∧ (is_rate_limited {} 0 false [("a", 1)] 5 60 1000 "u").1 = (false, 0)
    ∧ (rate_limit_script [] 5 60 1000 "a").1.2
        ≤ (rate_limit_script (rate_limit_script [] 5 60 1000 "a").2 5 60 2000 "b").1.2 := by
  refine ⟨?_, ?_, ?_⟩
  · rw [(c8_rate_limiter {} 0 [] 5 60 1000 "u" rfl).1]
    rfl
  · rw [(c8_rate_limiter {} 0 [("a", 1)] 5 60 1000 "u" rfl).2.1]
  · exact (c8_rate_limiter {} 0 [] 5 60 1000 "a" rfl).2.2.2.2 2000 "b" (by decide)

/-- C9 counterexample: the first retry backoff of `acquire_advisory_lock`
is `min(0.1 * 2^0, 1.0)` s = 100 ms, not 10 ms as claimed. -/
theorem c9_backoff_starts_at_100ms :
    advisory_backoff_ms 0 = 100 ∧ advisory_backoff_ms 0 ≠ 10 := by
  constructor <;> decide

theorem acquire_advisory_retry_iff (tries : Nat → Bool) :
    ∀ (r a : Nat),
      (acquire_advisory_retry tries a r = true ↔ ∃ j, 0 < j ∧ j ≤ r ∧ tries (a + j) = true) := by
  intro r
  induction r with
  | zero =>
    intro a
    simp [acquire_advisory_retry]
    omega
  | succ n ih =>
    intro a
    simp only [acquire_advisory_retry]
    by_cases h : tries (a + 1) = true
    · rw [if_pos h]
      constructor
      · intro _
        exact ⟨1, Nat.one_pos, Nat.succ_le_succ (Nat.zero_le n), h⟩
      · intro _
        rfl
    · rw [if_neg h]
      rw [ih (a + 1)]
      constructor
      · rintro ⟨j, hj0, hjr, hjt⟩
        refine ⟨j + 1, Nat.succ_pos j, Nat.succ_le_succ hjr, ?_⟩
        rw [← hjt]
        congr 1
        omega
      · rintro ⟨j, hj0, hjr, hjt⟩
        have hj1 : j ≠ 1 := by
          intro hcon
          rw [hcon] at hjt
          exact h hjt
        refine ⟨j - 1, by omega, by omega, ?_⟩
        rw [← hjt]
        congr 1
        omega

/-- C9 (amended): `acquire_advisory_lock` makes one immediate probe and —
when it fails and the `timeout` parameter is positive — up to `timeout`
further probes (the parameter is a retry count, not an elapsed-time
budget), sleeping `advisory_backoff_ms attempt` before probe
`attempt + 1`: an exponential backoff starting at 100 ms, doubling, capped
at 1 s. It returns `true` iff one of the probes `0 .. timeout` succeeds
(stopping at the first success), and `false` when all probes fail. -/
theorem c9_acquire_advisory_lock_retries (tries : Nat → Bool) (timeout : Nat)
    (htimeout : 0 < timeout) :
    (advisory_backoff_ms 0 = 100
      ∧ (∀ k, advisory_backoff_ms (k + 1) = min (2 * advisory_backoff_ms k) 1000))
    ∧ (acquire_advisory_lock tries timeout = true ↔ ∃ j ≤ timeout, tries j = true) := by
  constructor
  · constructor
    · decide
    · intro k
      unfold advisory_backoff_ms
      rw [Nat.pow_succ]
      have h2 : 100 * (2 ^ k * 2) = 2 * (100 * 2 ^ k) := by ring
      rw [h2]
      omega
  · unfold acquire_advisory_lock
    by_cases h0 : tries 0 = true
    · rw [if_pos h0]
      constructor
      · intro _
        exact ⟨0, Nat.zero_le _, h0⟩
      · intro _
        rfl
    · rw [if_neg h0, if_pos (show timeout > 0 from htimeout)]
      rw [acquire_advisory_retry_iff tries timeout 0]
      constructor
      · rintro ⟨j, hj0, hjr, hjt⟩
        exact ⟨j, hjr, by simpa using hjt⟩
      · rintro ⟨j, hjr, hjt⟩
        have hj0 : 0 < j := by
          rcases Nat.eq_zero_or_pos j with rfl | hpos
          · exact absurd hjt h0
          · exact hpos
        exact ⟨j, hj0, hjr, by simpa using hjt⟩

/-- Witness for C9 (amended): with a lock that frees up at the second
probe, a budget of 3 retries acquires it; the backoff doubles from 100 ms. -/
theorem c9_acquire_advisory_lock_witness :
    acquire_advisory_lock (fun k => k = 2) 3 = true ∧ advisory_backoff_ms 1 = 200 := by
  constructor
  · exact ((c9_acquire_advisory_lock_retries (fun k => decide (k = 2)) 3 (by decide)).2).mpr
      ⟨2, by decide, by decide⟩
  · decide

/-- C1: against a healthy world where both saga steps complete (the
database commit inserts the pending booking — second conjunct),
`create_booking_saga` returns `(True, None)`: the booking summary written
by `_create_booking_db` goes into the merged per-attempt copy of the
context that `_execute_step` builds and then discards, so
`saga.context.get('booking_result')` is still the initial `None`. The
source's own comments expect the summary to be returned
("Store booking result in context for return after commit"). -/
theorem c1_create_booking_saga_returns_no_summary :
    (create_booking_saga c1world "E1" ["S1", "S2"] "U1" .pnone).1
      = (true, PyVal.pnone, none)
    ∧ ((create_booking_saga c1world "E1" ["S1", "S2"] "U1" .pnone).2.db.bookings.map
        (fun b => (b.status, b.booking_code)))
      = [(BookingStatus.pending, "EVT0A1B2C3D")] := by
  constructor <;> rfl

/-- C2 counterexample: user U1 requests seat S1 of event E1 while Redis
already holds S1 for another user — step 1 returns the non-empty failed
set `['S1']`. The booking service classifies the saga error
(`"Redis seat reservation failed for seats: ['S1']"` matches
`"reservation failed"`, not `"no longer available"`) as
`ReservationError`, so the endpoint answers HTTP 423 `reservation_failed`,
not HTTP 409 `seats_unavailable` as the claim states. -/
theorem c2_step1_failure_is_http_423_not_409 :
    create_booking_http_status
      (create_booking_classify
        (create_booking_saga c2world "E1" ["S1"] "U1" PyVal.pnone).1.1
        (create_booking_saga c2world "E1" ["S1"] "U1" PyVal.pnone).1.2.2) = 423
    ∧ create_booking_http_status
      (create_booking_classify
        (create_booking_saga c2world "E1" ["S1"] "U1" PyVal.pnone).1.1
        (create_booking_saga c2world "E1" ["S1"] "U1" PyVal.pnone).1.2.2) ≠ 409 := by
  constructor <;> decide

/-- C2 (amended): every step-1 reservation failure whose message does not
accidentally contain the text `"no longer available"` (no seat id contains
it) is classified as `ReservationError` → HTTP 423 `reservation_failed`;
the failed seat ids are all named in the error message. HTTP 409
`seats_unavailable` arises only from messages carrying
`"no longer available"`, i.e. the durable-store step's failures. -/
theorem c2_step1_failure_classified_reservation_failed (failed : List String)
    (hno : strContainsB ("Redis seat reservation failed for seats: " ++ pyStrList failed)
        "no longer available" = false) :
    classify_saga_failure
        (some ("Redis seat reservation failed for seats: " ++ pyStrList failed))
      = .reservation_failed ("Redis seat reservation failed for seats: " ++ pyStrList failed)
    ∧ create_booking_http_status
        (classify_saga_failure
          (some ("Redis seat reservation failed for seats: " ++ pyStrList failed))) = 423
    ∧ (∀ sid ∈ failed,
        strContainsB ("Redis seat reservation failed for seats: " ++ pyStrList failed) sid
          = true) := by
  have hmark := reserve_fail_msg_marker failed
  have hclass : classify_saga_failure
      (some ("Redis seat reservation failed for seats: " ++ pyStrList failed))
      = .reservation_failed ("Redis seat reservation failed for seats: " ++ pyStrList failed) := by
    unfold classify_saga_failure
    dsimp only
    rw [hno, hmark]
    simp
  exact ⟨hclass, by rw [hclass]; rfl, fun sid h => mem_reserve_fail_msg failed sid h⟩

/-- Witness for C2 (amended): the failed set `['S1']`. -/
theorem c2_classified_reservation_failed_witness :
    classify_saga_failure
        (some ("Redis seat reservation failed for seats: " ++ pyStrList ["S1"]))
      = .reservation_failed ("Redis seat reservation failed for seats: " ++ pyStrList ["S1"]) :=
  (c2_step1_failure_classified_reservation_failed ["S1"] (by decide)).1

/-- C3 counterexample: booking B1 is pending, owned by U1, with
`expires_at = 100`. Confirming exactly at `now = 100` does **not** expire
the booking (the source tests `current_time > expires_at`, a strict
inequality): the call confirms it. The claim's inclusive boundary
(`now ≥ expires_at` counts as expired) is false on the code. -/
theorem c3_confirm_at_exact_expiry_confirms :
    (confirm_booking c3db "B1" "U1" 100 none).1 = ConfirmOutcome.confirmed_ok "EVTAAAA0001"
    ∧ (confirm_booking c3db "B1" "U1" 100 none).1 ≠ ConfirmOutcome.expired_err 100
    ∧ ((confirm_booking c3db "B1" "U1" 100 none).2.bookings.map (fun b => b.status))
      = [BookingStatus.confirmed] := by
  refine ⟨rfl, ?_, rfl⟩
  intro h
  exact ConfirmOutcome.noConfusion h

/-- C3 (amended): for a pending booking owned by the caller with
`now > expires_at` (strictly after expiry; at the exact boundary the
booking is confirmed instead), `confirm_booking` does not confirm: within
the same durable transaction it flips the booking to `expired`, returns
every associated seat to `available` with the holder fields cleared
(leaving all other rows untouched), commits (the returned database state
reflects the change), and raises 410 `booking_expired`. -/
theorem c3_confirm_after_expiry_expires_inline
    (db : Db) (booking_id user_id : String) (now : Int) (pr : Option String) (b : BookingRow)
    (hfind : db.bookings.find? (fun r =>
        r.id = booking_id ∧ r.user_id = user_id ∧ r.status = BookingStatus.pending) = some b)
    (hexp : now > b.expires_at) :
    (confirm_booking db booking_id user_id now pr).1 = ConfirmOutcome.expired_err b.expires_at
    ∧ (∀ r ∈ (confirm_booking db booking_id user_id now pr).2.bookings,
        r.id = b.id → r.status = .expired)
    ∧ (∀ r ∈ (confirm_booking db booking_id user_id now pr).2.bookings,
        r.id ≠ b.id → r ∈ db.bookings)
    ∧ (∀ s ∈ (confirm_booking db booking_id user_id now pr).2.seats,
        s.id ∈ associated_seat_ids db b.id →
          s.status = .available ∧ s.reserved_by = none ∧ s.reserved_at = none)
    ∧ (∀ s ∈ (confirm_booking db booking_id user_id now pr).2.seats,
        s.id ∉ associated_seat_ids db b.id → s ∈ db.seats)
    ∧ (confirm_booking db booking_id user_id now pr).2.events = db.events := by
  have hres : confirm_booking db booking_id user_id now pr
      = (ConfirmOutcome.expired_err b.expires_at,
         { db with
           bookings := db.bookings.map (fun r =>
             if r.id = b.id then { r with status := .expired } else r)
           seats := db.seats.map (fun s =>
             if s.id ∈ associated_seat_ids db b.id then
               { s with status := .available, reserved_by := none, reserved_at := none }
             else s) }) := by
    unfold confirm_booking
    simp only [hfind]
    rw [if_pos hexp]
  refine ⟨by rw [hres], ?_, ?_, ?_, ?_, by rw [hres]⟩
  · intro r hr hid
    rw [hres] at hr
    obtain ⟨r₀, hr₀, rfl⟩ := List.mem_map.mp hr
    by_cases h : r₀.id = b.id
    · simp [h]
    · simp only [h, if_neg, ite_false] at hid ⊢
  · intro r hr hid
    rw [hres] at hr
    obtain ⟨r₀, hr₀, rfl⟩ := List.mem_map.mp hr
    by_cases h : r₀.id = b.id
    · simp only [h, if_pos, ite_true] at hid
      exact absurd h (by simpa using hid)
    · simpa [h] using hr₀
  · intro s hs hid
    rw [hres] at hs
    obtain ⟨s₀, hs₀, rfl⟩ := List.mem_map.mp hs
    by_cases h : s₀.id ∈ associated_seat_ids db b.id
    · simp [h]
    · simp only [h, if_neg, ite_false] at hid
  · intro s hs hid
    rw [hres] at hs
    obtain ⟨s₀, hs₀, rfl⟩ := List.mem_map.mp hs
    by_cases h : s₀.id ∈ associated_seat_ids db b.id
    · simp only [h, if_pos, ite_true] at hid
      exact absurd h (by simpa using hid)
    · simpa [h] using hs₀

/-- Witness for C3 (amended): confirming B1 one tick after its expiry
(now = 101 > 100) yields the 410 `booking_expired` outcome. -/
theorem c3_confirm_after_expiry_witness :
    (confirm_booking c3db "B1" "U1" 101 none).1 = ConfirmOutcome.expired_err 100 :=
  (c3_confirm_after_expiry_expires_inline c3db "B1" "U1" 101 none
    { id := "B1", user_id := "U1", event_id := "E1", booking_code := "EVTAAAA0001",
      status := .pending, total_amount := 100, expires_at := 100 }
    (by decide) (by decide)).1
